import Mathlib

/-!
# SpaceX Launch Records Dashboard — verification of the aggregation layer

Shallow embedding of `src/spacex-dash-app.py`: the launch table, the two
callback functions `get_pie_chart` and `get_scatter_chart`, and the pandas
operations they use (`DataFrame` boolean filtering, `Series.value_counts`,
plotly-express aggregation of a pie's `values` column by its `names` column).

Records are rows of the CSV: `Launch Site`, `Payload Mass (kg)`,
`Booster Version Category`, `class`.  Payload masses and slider bounds are
modelled as integers (only order comparisons occur); the `class` column is a
natural number (the code itself never constrains it to {0,1}).
-/

/-- One row of `spacex_df`. -/
structure LaunchRecord where
  launchSite : String
  payloadMassKg : Int
  boosterVersionCategory : String
  outcomeClass : Nat
deriving Repr, DecidableEq

/-- A launch table: the in-memory dataframe, an ordered sequence of rows. -/
abbrev LaunchTable := List LaunchRecord

/-- Distinct values of a list in first-occurrence order (`Series.unique`,
and pandas key order for a hash-table based group). -/
def uniqueKeep {α : Type} [DecidableEq α] : List α → List α
  | [] => []
  | x :: rest => x :: (uniqueKeep rest).filter (fun y => y ≠ x)

/-- Insert a (value, count) pair into a list sorted by count descending,
keeping earlier elements first on ties (stable). -/
def insertDesc (p : Nat × Nat) : List (Nat × Nat) → List (Nat × Nat)
  | [] => [p]
  | q :: rest => if p.2 ≥ q.2 then p :: q :: rest else q :: insertDesc p rest

/-- Stable sort by count, descending (the `sort=True, ascending=False`
default of `Series.value_counts`). -/
def sortDesc : List (Nat × Nat) → List (Nat × Nat)
  | [] => []
  | p :: rest => insertDesc p (sortDesc rest)

/-- `Series.value_counts()`: pairs (value, multiplicity), computed per
distinct value in first-occurrence order and then sorted by multiplicity
descending.  Ties keep first-occurrence order (stable sort). -/
def valueCounts (xs : List Nat) : List (Nat × Nat) :=
  sortDesc ((uniqueKeep xs).map (fun v => (v, xs.count v)))

/-- `spacex_df[spacex_df['Launch Site'] == site]`. -/
def siteFilter (df : LaunchTable) (site : String) : LaunchTable :=
  df.filter (fun r => r.launchSite == site)

/-- Number of records at `site` whose `class` column equals `c`. -/
def classCount (df : LaunchTable) (site : String) (c : Nat) : Nat :=
  (df.filter (fun r => r.launchSite == site && r.outcomeClass == c)).length

/-- The data carried by the figure `get_pie_chart` builds: the `values` and
`names` arrays handed to `px.pie`, and the title. -/
structure PieFig where
  values : List Nat
  names : List String
  title : String
deriving Repr, DecidableEq

/-- The data carried by the figure `get_scatter_chart` builds: the filtered
dataframe handed to `px.scatter` and the columns it selects for x, y, color,
marker size and (in the "ALL" branch only) hover data. -/
structure ScatterFig where
  records : List LaunchRecord
  x : List Int
  y : List Nat
  color : List String
  size : List Int
  hoverSite : Option (List String)
  title : String
deriving Repr, DecidableEq

/-- `get_pie_chart(entered_site)` over an explicit table, at the data level:
the values/names arrays the code computes and hands to `px.pie`.
In the `'ALL'` branch, `px.pie(spacex_df, values='class', names='Launch
Site')` aggregates the `class` column by summing it per distinct value of
`Launch Site`; the embedding records the aggregated slices directly.
In the site branch the code takes `value_counts()` of the filtered `class`
column as the values and picks the names list by testing `0 in
success_counts.index`.  This data-level function does not include plotly's
validation of the array arguments; the full call, validation included, is
`get_pie_chart_checked` below. -/
def get_pie_chart (df : LaunchTable) (entered_site : String) : PieFig :=
  if entered_site == "ALL" then
    let sites := uniqueKeep (df.map (fun r => r.launchSite))
    { values := sites.map (fun s => ((siteFilter df s).map (fun r => r.outcomeClass)).sum)
      names := sites
      title := "Total Success Launches By Site" }
  else
    let filtered_df := siteFilter df entered_site
    let success_counts := valueCounts (filtered_df.map (fun r => r.outcomeClass))
    { values := success_counts.map (fun p => p.2)
      names := if success_counts.any (fun p => p.1 == 0) then ["Failed", "Success"]
               else ["Success"]
      title := "Total Success Launches for site " ++ entered_site }

/-- The array-mode `px.pie(values=..., names=...)` call of the site branch:
plotly express validates that all array arguments have the same length and
raises `ValueError("All arguments should have the same length")` on a
mismatch, modelled as `Except.error`. -/
def px_pie (values : List Nat) (names : List String) (title : String) :
    Except String PieFig :=
  if values.length = names.length then
    Except.ok { values := values, names := names, title := title }
  else
    Except.error "All arguments should have the same length"

/-- `get_pie_chart(entered_site)` including the `px.pie` call itself.  In
the `'ALL'` branch `px.pie` receives one dataframe plus two column names, so
no length mismatch can arise and the aggregated figure is returned; in the
site branch the computed values/names arrays go through the array-length
validation of `px_pie`. -/
def get_pie_chart_checked (df : LaunchTable) (entered_site : String) :
    Except String PieFig :=
  if entered_site == "ALL" then
    Except.ok (get_pie_chart df entered_site)
  else
    let filtered_df := siteFilter df entered_site
    let success_counts := valueCounts (filtered_df.map (fun r => r.outcomeClass))
    px_pie (success_counts.map (fun p => p.2))
      (if success_counts.any (fun p => p.1 == 0) then ["Failed", "Success"]
       else ["Success"])
      ("Total Success Launches for site " ++ entered_site)

/-- `get_scatter_chart(entered_site, payload_range)` over an explicit table:
filter to `low <= Payload Mass (kg) <= high`, then (site branch) to the
selected site; `px.scatter` takes payload as x, `class` as y, booster
category as color, payload again as size, and `hover_data=['Launch Site']`
in the `'ALL'` branch only. -/
def get_scatter_chart (df : LaunchTable) (entered_site : String)
    (payload_range : Int × Int) : ScatterFig :=
  let low := payload_range.1
  let high := payload_range.2
  let filtered_df := df.filter (fun r => low ≤ r.payloadMassKg && r.payloadMassKg ≤ high)
  if entered_site == "ALL" then
    { records := filtered_df
      x := filtered_df.map (fun r => r.payloadMassKg)
      y := filtered_df.map (fun r => r.outcomeClass)
      color := filtered_df.map (fun r => r.boosterVersionCategory)
      size := filtered_df.map (fun r => r.payloadMassKg)
      hoverSite := some (filtered_df.map (fun r => r.launchSite))
      title := "Correlation between Payload and Success for all Sites" }
  else
    let site_filtered_df := filtered_df.filter (fun r => r.launchSite == entered_site)
    { records := site_filtered_df
      x := site_filtered_df.map (fun r => r.payloadMassKg)
      y := site_filtered_df.map (fun r => r.outcomeClass)
      color := site_filtered_df.map (fun r => r.boosterVersionCategory)
      size := site_filtered_df.map (fun r => r.payloadMassKg)
      hoverSite := none
      title := "Correlation between Payload and Success for site " ++ entered_site }

/-- The two UI-bound control values. The pie callback is registered with the
site dropdown as its only input; the scatter callback with both controls. -/
structure ControlState where
  selectedSite : String
  payloadRange : Int × Int

/-- What the framework recomputes for the pie chart on a control change:
`get_pie_chart` applied to the dropdown value only. -/
def dashboardPie (df : LaunchTable) (cs : ControlState) : PieFig :=
  get_pie_chart df cs.selectedSite

/-- A pie-callback invocation as a state transformer on the table: it
returns the figure and leaves the table as it found it (the code only ever
reads `spacex_df`). -/
def pieCall (df : LaunchTable) (site : String) : PieFig × LaunchTable :=
  (get_pie_chart df site, df)

/-- A scatter-callback invocation as a state transformer on the table. -/
def scatterCall (df : LaunchTable) (site : String) (rng : Int × Int) :
    ScatterFig × LaunchTable :=
  (get_scatter_chart df site rng, df)

/-- The worked example table of the spec (§8). -/
def exTable : LaunchTable :=
  [⟨"SiteA", 500, "v1", 1⟩, ⟨"SiteA", 700, "v1", 0⟩, ⟨"SiteB", 600, "v2", 1⟩]

/-- A site with more successes (class 1) than failures (class 0). -/
def tblMoreSuccesses : LaunchTable :=
  [⟨"CCAFS", 1000, "v1", 1⟩, ⟨"CCAFS", 2000, "v1", 1⟩, ⟨"CCAFS", 3000, "v1", 0⟩]

/-- A site at which every launch failed (class 0 only). -/
def tblOnlyFailures : LaunchTable := [⟨"CCAFS", 1000, "v1", 0⟩]

example : (get_pie_chart exTable "ALL").names = ["SiteA", "SiteB"] := by decide
example : (get_pie_chart exTable "ALL").values = [1, 1] := by decide
example : (get_pie_chart exTable "SiteA").names = ["Failed", "Success"] := by decide
example : (get_pie_chart exTable "SiteA").values = [1, 1] := by decide
example : (get_scatter_chart exTable "ALL" (0, 650)).records =
    [⟨"SiteA", 500, "v1", 1⟩, ⟨"SiteB", 600, "v2", 1⟩] := by decide

/-! ## Lemmas about the embedded pandas operations -/

theorem mem_uniqueKeep {α : Type} [DecidableEq α] (xs : List α) (v : α) :
    v ∈ uniqueKeep xs ↔ v ∈ xs := by
  induction xs with
  | nil => simp [uniqueKeep]
  | cons x rest ih =>
    simp only [uniqueKeep, List.mem_cons, List.mem_filter, ih, decide_eq_true_eq]
    constructor
    · rintro (rfl | ⟨hmem, _⟩)
      · exact Or.inl rfl
      · exact Or.inr hmem
    · rintro (rfl | hmem)
      · exact Or.inl rfl
      · by_cases hvx : v = x
        · exact Or.inl hvx
        · exact Or.inr ⟨hmem, hvx⟩

theorem nodup_uniqueKeep {α : Type} [DecidableEq α] (xs : List α) :
    (uniqueKeep xs).Nodup := by
  induction xs with
  | nil => simp [uniqueKeep]
  | cons x rest ih =>
    refine List.Nodup.cons ?_ (ih.filter _)
    intro hx
    rcases List.mem_filter.mp hx with ⟨_, hne⟩
    simp at hne

theorem eq_singleton_of_nodup_mem {α : Type} (l : List α) (a : α)
    (hnd : l.Nodup) (hmem : ∀ y, y ∈ l ↔ y = a) : l = [a] := by
  cases l with
  | nil => exact absurd ((hmem a).mpr rfl) (List.not_mem_nil a)
  | cons b t =>
    have hb : b = a := (hmem b).mp (List.mem_cons_self b t)
    subst hb
    have ht : t = [] := by
      cases t with
      | nil => rfl
      | cons c u =>
        have hc : c = b := (hmem c).mp (List.mem_cons_of_mem b (List.mem_cons_self c u))
        subst hc
        simp at hnd
    rw [ht]

theorem insertDesc_perm (p : Nat × Nat) (l : List (Nat × Nat)) :
    (insertDesc p l).Perm (p :: l) := by
  induction l with
  | nil => simp [insertDesc]
  | cons q rest ih =>
    by_cases h : p.2 ≥ q.2
    · simp [insertDesc, h]
    · simp only [insertDesc, if_neg h]
      exact ((ih.cons q).trans (List.Perm.swap p q rest))

theorem sortDesc_perm (l : List (Nat × Nat)) : (sortDesc l).Perm l := by
  induction l with
  | nil => simp [sortDesc]
  | cons p rest ih => exact (insertDesc_perm p (sortDesc rest)).trans (ih.cons p)

theorem valueCounts_perm (xs : List Nat) :
    (valueCounts xs).Perm ((uniqueKeep xs).map (fun v => (v, xs.count v))) :=
  sortDesc_perm _

theorem map_congr_mem {α β : Type} {l : List α} {f g : α → β}
    (h : ∀ a ∈ l, f a = g a) : l.map f = l.map g := by
  induction l with
  | nil => rfl
  | cons a t ih =>
    simp only [List.map_cons, h a (List.mem_cons_self a t)]
    rw [ih (fun b hb => h b (List.mem_cons_of_mem a hb))]

theorem count_uniqueKeep {α : Type} [DecidableEq α] (xs : List α) (v : α) :
    (uniqueKeep xs).count v = if v ∈ xs then 1 else 0 := by
  by_cases h : v ∈ xs
  · rw [if_pos h]
    exact List.count_eq_one_of_mem (nodup_uniqueKeep xs) ((mem_uniqueKeep xs v).mpr h)
  · rw [if_neg h]
    exact List.count_eq_zero_of_not_mem (fun hc => h ((mem_uniqueKeep xs v).mp hc))

theorem sum_filter_ne_add_count {α : Type} [DecidableEq α]
    (l : List α) (f : α → Nat) (x : α) :
    ((l.filter (fun y => y ≠ x)).map f).sum + l.count x * f x = (l.map f).sum := by
  induction l with
  | nil => simp
  | cons y t ih =>
    by_cases hyx : y = x
    · subst hyx
      simp only [List.filter_cons, decide_eq_true_eq, List.count_cons_self,
        List.map_cons, List.sum_cons]
      rw [if_neg (by simp)]
      rw [Nat.succ_mul]
      omega
    · simp only [List.filter_cons, decide_eq_true_eq, List.map_cons, List.sum_cons]
      rw [if_pos hyx, List.count_cons_of_ne (fun h => hyx h.symm)]
      simp only [List.map_cons, List.sum_cons]
      omega

theorem sum_map_uniqueKeep_count {α : Type} [DecidableEq α] (xs : List α) :
    ((uniqueKeep xs).map (fun v => xs.count v)).sum = xs.length := by
  induction xs with
  | nil => simp [uniqueKeep]
  | cons x rest ih =>
    simp only [uniqueKeep, List.map_cons, List.sum_cons]
    have hcongr : ((uniqueKeep rest).filter (fun y => y ≠ x)).map
          (fun v => (x :: rest).count v)
        = ((uniqueKeep rest).filter (fun y => y ≠ x)).map (fun v => rest.count v) := by
      refine map_congr_mem (fun v hv => ?_)
      rcases List.mem_filter.mp hv with ⟨_, hne⟩
      have hvx : v ≠ x := by simpa using hne
      exact List.count_cons_of_ne hvx _
    rw [hcongr]
    have hkey := sum_filter_ne_add_count (uniqueKeep rest) (fun v => rest.count v) x
    rw [ih] at hkey
    rw [count_uniqueKeep rest x] at hkey
    by_cases hx : x ∈ rest
    · rw [if_pos hx] at hkey
      rw [List.count_cons_self]
      simp only [Nat.one_mul] at hkey
      simp only [List.length_cons]
      omega
    · rw [if_neg hx] at hkey
      rw [List.count_cons_self, List.count_eq_zero_of_not_mem hx]
      simp only [Nat.zero_mul, Nat.add_zero] at hkey
      simp only [List.length_cons]
      omega

theorem sum_eq_count_one (l : List Nat) (h : ∀ c ∈ l, c = 0 ∨ c = 1) :
    l.sum = l.count 1 := by
  induction l with
  | nil => simp
  | cons c t ih =>
    have hc := h c (List.mem_cons_self c t)
    have ht := ih (fun d hd => h d (List.mem_cons_of_mem c hd))
    rcases hc with hc0 | hc1
    · subst hc0
      simp [List.count_cons]
      omega
    · subst hc1
      simp [List.count_cons]
      omega

theorem count_map_filter {α : Type} (l : List α) (f : α → Nat) (p : α → Bool) (c : Nat) :
    (((l.filter p).map f).count c) = (l.filter (fun a => p a && f a == c)).length := by
  induction l with
  | nil => simp
  | cons a t ih =>
    by_cases hpa : p a = true
    · by_cases hfc : f a = c
      · have hand : (p a && (f a == c)) = true := by simp [hpa, hfc]
        simp [List.filter_cons, hpa, hand, List.count_cons, hfc, ih]
      · have hand : (p a && (f a == c)) = false := by simp [hfc]
        have hne : ¬ (c = f a) := fun h => hfc h.symm
        simp [List.filter_cons, hpa, hand, List.count_cons, hfc, hne, ih]
    · have hpa' : p a = false := by simpa using hpa
      have hand : (p a && (f a == c)) = false := by simp [hpa']
      simp [List.filter_cons, hpa', hand, ih]

theorem filter_congr_mem {α : Type} {l : List α} {p q : α → Bool}
    (h : ∀ a ∈ l, p a = q a) : l.filter p = l.filter q := by
  induction l with
  | nil => rfl
  | cons a t ih =>
    have ha := h a (List.mem_cons_self a t)
    have ht := ih (fun b hb => h b (List.mem_cons_of_mem a hb))
    simp only [List.filter_cons, ha, ht]

theorem uniqueKeep_eq_singleton {α : Type} [DecidableEq α]
    (l : List α) (a : α) (hne : l ≠ []) (hall : ∀ y ∈ l, y = a) :
    uniqueKeep l = [a] := by
  refine eq_singleton_of_nodup_mem _ a (nodup_uniqueKeep l) (fun y => ?_)
  rw [mem_uniqueKeep]
  constructor
  · exact fun hy => hall y hy
  · intro hy
    cases l with
    | nil => exact absurd rfl hne
    | cons b t =>
      have hb := hall b (List.mem_cons_self b t)
      rw [hy, ← hb]
      exact List.mem_cons_self b t

theorem uniqueKeep_01 (l : List Nat) (hall : ∀ c ∈ l, c = 0 ∨ c = 1)
    (h0 : 0 ∈ l) (h1 : 1 ∈ l) :
    uniqueKeep l = [0, 1] ∨ uniqueKeep l = [1, 0] := by
  cases l with
  | nil => cases h0
  | cons x rest =>
    have hfiltmem : ∀ y, y ∈ (uniqueKeep rest).filter (fun z => z ≠ x) ↔
        (y ∈ rest ∧ y ≠ x) := by
      intro y
      rw [List.mem_filter, mem_uniqueKeep]
      simp
    rcases hall x (List.mem_cons_self x rest) with hx | hx
    · subst hx
      have h1r : 1 ∈ rest := by
        rcases List.mem_cons.mp h1 with h | h
        · exact absurd h one_ne_zero
        · exact h
      have hsingle : (uniqueKeep rest).filter (fun z => z ≠ 0) = [1] := by
        refine eq_singleton_of_nodup_mem _ 1 ((nodup_uniqueKeep rest).filter _)
          (fun y => ?_)
        rw [hfiltmem y]
        constructor
        · rintro ⟨hyr, hy0⟩
          rcases hall y (List.mem_cons_of_mem 0 hyr) with h | h
          · exact absurd h hy0
          · exact h
        · rintro rfl
          exact ⟨h1r, one_ne_zero⟩
      left
      show 0 :: (uniqueKeep rest).filter (fun z => z ≠ 0) = [0, 1]
      rw [hsingle]
    · subst hx
      have h0r : 0 ∈ rest := by
        rcases List.mem_cons.mp h0 with h | h
        · exact absurd h zero_ne_one
        · exact h
      have hsingle : (uniqueKeep rest).filter (fun z => z ≠ 1) = [0] := by
        refine eq_singleton_of_nodup_mem _ 0 ((nodup_uniqueKeep rest).filter _)
          (fun y => ?_)
        rw [hfiltmem y]
        constructor
        · rintro ⟨hyr, hy1⟩
          rcases hall y (List.mem_cons_of_mem 1 hyr) with h | h
          · exact h
          · exact absurd h hy1
        · rintro rfl
          exact ⟨h0r, zero_ne_one⟩
      right
      show 1 :: (uniqueKeep rest).filter (fun z => z ≠ 1) = [1, 0]
      rw [hsingle]

theorem valueCounts_single {l : List Nat} {a : Nat}
    (hne : l ≠ []) (hall : ∀ c ∈ l, c = a) :
    valueCounts l = [(a, l.count a)] := by
  unfold valueCounts
  rw [uniqueKeep_eq_singleton l a hne hall]
  simp [sortDesc, insertDesc]

theorem valueCounts_both {l : List Nat} (hall : ∀ c ∈ l, c = 0 ∨ c = 1)
    (h0 : 0 ∈ l) (h1 : 1 ∈ l) :
    (valueCounts l).map (fun p => p.2)
        = [max (l.count 0) (l.count 1), min (l.count 0) (l.count 1)]
      ∧ (valueCounts l).any (fun p => p.1 == 0) = true := by
  rcases uniqueKeep_01 l hall h0 h1 with hu | hu
  · unfold valueCounts
    rw [hu]
    by_cases hge : l.count 1 ≤ l.count 0
    · simp [sortDesc, insertDesc, hge, Nat.max_eq_left hge, Nat.min_eq_right hge]
    · have hlt : l.count 0 ≤ l.count 1 := le_of_not_le hge
      simp [sortDesc, insertDesc, hge, Nat.max_eq_right hlt, Nat.min_eq_left hlt]
  · unfold valueCounts
    rw [hu]
    by_cases hge : l.count 0 ≤ l.count 1
    · simp [sortDesc, insertDesc, hge, Nat.max_eq_right hge, Nat.min_eq_left hge]
    · have hlt : l.count 1 ≤ l.count 0 := le_of_not_le hge
      simp [sortDesc, insertDesc, hge, Nat.max_eq_left hlt, Nat.min_eq_right hlt]

theorem mem_siteFilter (df : LaunchTable) (site : String) (r : LaunchRecord) :
    r ∈ siteFilter df site ↔ r ∈ df ∧ r.launchSite = site := by
  simp [siteFilter, List.mem_filter]

theorem count_cls (df : LaunchTable) (site : String) (c : Nat) :
    ((siteFilter df site).map (fun r => r.outcomeClass)).count c = classCount df site c :=
  count_map_filter df (fun r => r.outcomeClass) (fun r => r.launchSite == site) c

theorem get_pie_chart_site_values (df : LaunchTable) (site : String)
    (h : (site == "ALL") = false) :
    (get_pie_chart df site).values
      = (valueCounts ((siteFilter df site).map (fun r => r.outcomeClass))).map
          (fun p => p.2) := by
  simp [get_pie_chart, h]

theorem get_pie_chart_site_names (df : LaunchTable) (site : String)
    (h : (site == "ALL") = false) :
    (get_pie_chart df site).names
      = if (valueCounts ((siteFilter df site).map (fun r => r.outcomeClass))).any
            (fun p => p.1 == 0)
        then ["Failed", "Success"] else ["Success"] := by
  simp [get_pie_chart, h]

theorem filter_filter_mem {α : Type} (l : List α) (p q : α → Bool) :
    (l.filter p).filter q = l.filter (fun a => p a && q a) := by
  induction l with
  | nil => rfl
  | cons a t ih =>
    by_cases hpa : p a = true
    · by_cases hqa : q a = true
      · simp [List.filter_cons, hpa, hqa, ih]
      · have hqa' : q a = false := by simpa using hqa
        simp [List.filter_cons, hpa, hqa', ih]
    · have hpa' : p a = false := by simpa using hpa
      simp [List.filter_cons, hpa', ih]

theorem scatter_records_eq (df : LaunchTable) (site : String) (rng : Int × Int) :
    (get_scatter_chart df site rng).records
      = df.filter (fun r => (rng.1 ≤ r.payloadMassKg && r.payloadMassKg ≤ rng.2)
          && (site == "ALL" || r.launchSite == site)) := by
  by_cases hs : (site == "ALL") = true
  · simp only [get_scatter_chart, hs, if_true]
    refine filter_congr_mem (fun a _ => ?_)
    simp [hs]
  · rw [Bool.not_eq_true] at hs
    simp only [get_scatter_chart, hs, Bool.false_eq_true, if_false]
    rw [filter_filter_mem]
    refine filter_congr_mem (fun a _ => ?_)
    simp [hs]

/-! ## The claims -/

/-- C1: when every record's class is 0 or 1, `pieData("ALL")` has one slice
per distinct launch site, and the slice of site S carries the number of
records at S with class 1 (the sum of the 0/1 class column at S). -/
theorem pie_all_success_counts (df : LaunchTable)
    (h : ∀ r ∈ df, r.outcomeClass = 0 ∨ r.outcomeClass = 1) :
    (get_pie_chart df "ALL").names.Nodup
    ∧ (∀ s, s ∈ (get_pie_chart df "ALL").names ↔ ∃ r ∈ df, r.launchSite = s)
    ∧ (get_pie_chart df "ALL").values
        = (get_pie_chart df "ALL").names.map (fun s => classCount df s 1) := by
  have hfig : get_pie_chart df "ALL"
      = { values := (uniqueKeep (df.map (fun r => r.launchSite))).map
            (fun s => ((siteFilter df s).map (fun r => r.outcomeClass)).sum)
          names := uniqueKeep (df.map (fun r => r.launchSite))
          title := "Total Success Launches By Site" } := rfl
  rw [hfig]
  refine ⟨nodup_uniqueKeep _, fun s => ?_, ?_⟩
  · rw [mem_uniqueKeep, List.mem_map]
  · refine map_congr_mem (fun s _ => ?_)
    have hsub : ∀ c ∈ (siteFilter df s).map (fun r => r.outcomeClass),
        c = 0 ∨ c = 1 := by
      intro c hc
      rcases List.mem_map.mp hc with ⟨r, hr, rfl⟩
      exact h r (List.mem_of_mem_filter hr)
    rw [sum_eq_count_one _ hsub, count_cls]

/-- C1 witness: the spec's worked example table satisfies the hypothesis and
the conclusion of `pie_all_success_counts`. -/
theorem pie_all_success_counts_witness :
    (∀ r ∈ exTable, r.outcomeClass = 0 ∨ r.outcomeClass = 1)
    ∧ ((get_pie_chart exTable "ALL").names.Nodup
      ∧ (∀ s, s ∈ (get_pie_chart exTable "ALL").names ↔ ∃ r ∈ exTable, r.launchSite = s)
      ∧ (get_pie_chart exTable "ALL").values
          = (get_pie_chart exTable "ALL").names.map (fun s => classCount exTable s 1)) :=
  ⟨by decide, pie_all_success_counts exTable (by decide)⟩

/-- C2 counterexample: at a site with 1 failure and 2 successes both classes
occur, the labels are the fixed `["Failed", "Success"]`, yet the count array
is NOT `[count of class 0, count of class 1]` — `value_counts()` sorts by
count descending, so the larger class-1 count comes first. -/
theorem pie_site_order_cex :
    ("CCAFS" : String) ≠ "ALL"
    ∧ 0 < classCount tblMoreSuccesses "CCAFS" 0
    ∧ 0 < classCount tblMoreSuccesses "CCAFS" 1
    ∧ (get_pie_chart tblMoreSuccesses "CCAFS").names = ["Failed", "Success"]
    ∧ (get_pie_chart tblMoreSuccesses "CCAFS").values
        ≠ [classCount tblMoreSuccesses "CCAFS" 0,
           classCount tblMoreSuccesses "CCAFS" 1] := by
  decide

/-- C2 amended: for a site at which both classes occur, the labels are
`["Failed", "Success"]` in that fixed order, but the count array is the two
per-class counts in descending order of count (majority class first), i.e.
`[max(count0, count1), min(count0, count1)]` — not class 0 then class 1. -/
theorem pie_site_both_classes (df : LaunchTable) (site : String)
    (hsite : site ≠ "ALL")
    (hall : ∀ r ∈ df, r.launchSite = site → r.outcomeClass = 0 ∨ r.outcomeClass = 1)
    (h0 : ∃ r ∈ df, r.launchSite = site ∧ r.outcomeClass = 0)
    (h1 : ∃ r ∈ df, r.launchSite = site ∧ r.outcomeClass = 1) :
    (get_pie_chart df site).names = ["Failed", "Success"]
    ∧ (get_pie_chart df site).values
        = [max (classCount df site 0) (classCount df site 1),
           min (classCount df site 0) (classCount df site 1)] := by
  have hb : (site == "ALL") = false := by simp [hsite]
  have hallc : ∀ c ∈ (siteFilter df site).map (fun r => r.outcomeClass),
      c = 0 ∨ c = 1 := by
    intro c hc
    rcases List.mem_map.mp hc with ⟨r, hr, rfl⟩
    rcases (mem_siteFilter df site r).mp hr with ⟨hrdf, hrsite⟩
    exact hall r hrdf hrsite
  have h0c : 0 ∈ (siteFilter df site).map (fun r => r.outcomeClass) := by
    rcases h0 with ⟨r, hrdf, hrsite, hrc⟩
    exact List.mem_map.mpr ⟨r, (mem_siteFilter df site r).mpr ⟨hrdf, hrsite⟩, hrc⟩
  have h1c : 1 ∈ (siteFilter df site).map (fun r => r.outcomeClass) := by
    rcases h1 with ⟨r, hrdf, hrsite, hrc⟩
    exact List.mem_map.mpr ⟨r, (mem_siteFilter df site r).mpr ⟨hrdf, hrsite⟩, hrc⟩
  obtain ⟨hvals, hany⟩ := valueCounts_both hallc h0c h1c
  constructor
  · rw [get_pie_chart_site_names df site hb, hany]
    simp
  · rw [get_pie_chart_site_values df site hb, hvals,
      count_cls df site 0, count_cls df site 1]

/-- C2 witness: `pie_site_both_classes` applied to the concrete table with
one failure and two successes at the one site. -/
theorem pie_site_both_classes_witness :
    ("CCAFS" : String) ≠ "ALL"
    ∧ (∀ r ∈ tblMoreSuccesses, r.launchSite = "CCAFS" →
        r.outcomeClass = 0 ∨ r.outcomeClass = 1)
    ∧ (∃ r ∈ tblMoreSuccesses, r.launchSite = "CCAFS" ∧ r.outcomeClass = 0)
    ∧ (∃ r ∈ tblMoreSuccesses, r.launchSite = "CCAFS" ∧ r.outcomeClass = 1)
    ∧ ((get_pie_chart tblMoreSuccesses "CCAFS").names = ["Failed", "Success"]
      ∧ (get_pie_chart tblMoreSuccesses "CCAFS").values
          = [max (classCount tblMoreSuccesses "CCAFS" 0)
                 (classCount tblMoreSuccesses "CCAFS" 1),
             min (classCount tblMoreSuccesses "CCAFS" 0)
                 (classCount tblMoreSuccesses "CCAFS" 1)]) :=
  ⟨by decide, by decide, by decide, by decide,
    pie_site_both_classes tblMoreSuccesses "CCAFS"
      (by decide) (by decide) (by decide) (by decide)⟩

/-- C3 counterexample: at a site where only class 0 occurs, the count array
does have exactly one entry, but the computed label list is NOT the length-1
`["Success"]` — the code's test `0 in success_counts.index` succeeds, so it
builds the length-2 `["Failed", "Success"]`. -/
theorem pie_site_mislabel_cex :
    ("CCAFS" : String) ≠ "ALL"
    ∧ (∃ r ∈ tblOnlyFailures, r.launchSite = "CCAFS")
    ∧ (∀ r ∈ tblOnlyFailures, r.launchSite = "CCAFS" → r.outcomeClass = 0)
    ∧ (get_pie_chart tblOnlyFailures "CCAFS").values.length = 1
    ∧ (get_pie_chart tblOnlyFailures "CCAFS").names ≠ ["Success"]
    ∧ (get_pie_chart tblOnlyFailures "CCAFS").names.length ≠ 1 := by
  decide

/-- C3 amended: for a site at which only class 0 occurs, the count array has
exactly one entry (the class-0 count) while the label list is the length-2
`["Failed", "Success"]`, mismatching the one count. -/
theorem pie_site_only_failures (df : LaunchTable) (site : String)
    (hsite : site ≠ "ALL")
    (hex : ∃ r ∈ df, r.launchSite = site)
    (hall : ∀ r ∈ df, r.launchSite = site → r.outcomeClass = 0) :
    (get_pie_chart df site).values = [classCount df site 0]
    ∧ (get_pie_chart df site).names = ["Failed", "Success"] := by
  have hb : (site == "ALL") = false := by simp [hsite]
  have hne : (siteFilter df site).map (fun r => r.outcomeClass) ≠ [] := by
    rcases hex with ⟨r, hrdf, hrsite⟩
    intro hnil
    have hmem : r.outcomeClass ∈ (siteFilter df site).map (fun r => r.outcomeClass) :=
      List.mem_map.mpr ⟨r, (mem_siteFilter df site r).mpr ⟨hrdf, hrsite⟩, rfl⟩
    rw [hnil] at hmem
    exact absurd hmem (List.not_mem_nil _)
  have hall0 : ∀ c ∈ (siteFilter df site).map (fun r => r.outcomeClass), c = 0 := by
    intro c hc
    rcases List.mem_map.mp hc with ⟨r, hr, rfl⟩
    rcases (mem_siteFilter df site r).mp hr with ⟨hrdf, hrsite⟩
    exact hall r hrdf hrsite
  have hvc := valueCounts_single hne hall0
  constructor
  · rw [get_pie_chart_site_values df site hb, hvc]
    simp only [List.map_cons, List.map_nil]
    rw [count_cls]
  · rw [get_pie_chart_site_names df site hb, hvc]
    simp

/-- C3 witness: `pie_site_only_failures` applied to the one-record all-failure
table. -/
theorem pie_site_only_failures_witness :
    ("CCAFS" : String) ≠ "ALL"
    ∧ (∃ r ∈ tblOnlyFailures, r.launchSite = "CCAFS")
    ∧ (∀ r ∈ tblOnlyFailures, r.launchSite = "CCAFS" → r.outcomeClass = 0)
    ∧ ((get_pie_chart tblOnlyFailures "CCAFS").values
          = [classCount tblOnlyFailures "CCAFS" 0]
      ∧ (get_pie_chart tblOnlyFailures "CCAFS").names = ["Failed", "Success"]) :=
  ⟨by decide, by decide, by decide,
    pie_site_only_failures tblOnlyFailures "CCAFS" (by decide) (by decide) (by decide)⟩

/-- C4: `scatterData(site, [low, high])` keeps exactly the records whose
payload lies in the inclusive range and — when the site is not "ALL" — whose
launch site matches; nothing else appears. -/
theorem scatter_filter_exact (df : LaunchTable) (site : String) (low high : Int) :
    (get_scatter_chart df site (low, high)).records
      = df.filter (fun r => (low ≤ r.payloadMassKg && r.payloadMassKg ≤ high)
          && (site == "ALL" || r.launchSite == site))
    ∧ ∀ r, r ∈ (get_scatter_chart df site (low, high)).records
        ↔ r ∈ df ∧ low ≤ r.payloadMassKg ∧ r.payloadMassKg ≤ high
          ∧ (site ≠ "ALL" → r.launchSite = site) := by
  have heq := scatter_records_eq df site (low, high)
  refine ⟨heq, fun r => ?_⟩
  rw [heq, List.mem_filter]
  constructor
  · rintro ⟨hrdf, hcond⟩
    simp only [Bool.and_eq_true, Bool.or_eq_true, decide_eq_true_eq,
      beq_iff_eq] at hcond
    obtain ⟨⟨hlo, hhi⟩, hsor⟩ := hcond
    refine ⟨hrdf, hlo, hhi, fun hne => ?_⟩
    rcases hsor with h | h
    · exact absurd h hne
    · exact h
  · rintro ⟨hrdf, hlo, hhi, himp⟩
    refine ⟨hrdf, ?_⟩
    simp only [Bool.and_eq_true, Bool.or_eq_true, decide_eq_true_eq, beq_iff_eq]
    refine ⟨⟨hlo, hhi⟩, ?_⟩
    by_cases hs : site = "ALL"
    · exact Or.inl hs
    · exact Or.inr (himp hs)

/-- C5: an inverted payload range (low > high) makes the scatter record set
empty, with no error raised (the function is total). -/
theorem scatter_inverted_range_empty (df : LaunchTable) (site : String)
    (low high : Int) (h : low > high) :
    (get_scatter_chart df site (low, high)).records = [] := by
  rw [scatter_records_eq]
  refine List.filter_eq_nil_iff.mpr (fun r _ => ?_)
  intro hc
  simp only [Bool.and_eq_true, decide_eq_true_eq] at hc
  have hlo := hc.1.1
  have hhi := hc.1.2
  omega

/-- C5 witness: `scatter_inverted_range_empty` at the example table with the
range [700, 200]. -/
theorem scatter_inverted_range_empty_witness :
    (700 : Int) > 200
    ∧ (get_scatter_chart exTable "ALL" (700, 200)).records = [] :=
  ⟨by decide, scatter_inverted_range_empty exTable "ALL" 700 200 (by decide)⟩

/-- Supporting data-level fact: a site string that is neither "ALL" nor a
launch site of the table yields an empty pie count array and an empty
scatter record set for every payload range. -/
theorem unknown_site_empty (df : LaunchTable) (site : String)
    (hsite : site ≠ "ALL") (hunk : ∀ r ∈ df, r.launchSite ≠ site) :
    (get_pie_chart df site).values = []
    ∧ ∀ rng : Int × Int, (get_scatter_chart df site rng).records = [] := by
  have hb : (site == "ALL") = false := by simp [hsite]
  have hsf : siteFilter df site = [] := by
    refine List.filter_eq_nil_iff.mpr (fun r hr => ?_)
    simp [hunk r hr]
  constructor
  · rw [get_pie_chart_site_values df site hb, hsf]
    rfl
  · intro rng
    rw [scatter_records_eq]
    refine List.filter_eq_nil_iff.mpr (fun r hr => ?_)
    have hls : (r.launchSite == site) = false := by simp [hunk r hr]
    simp [hb, hls]

/-- Instance of `unknown_site_empty` at the example table with the stale
site string "SiteX". -/
theorem unknown_site_empty_inst :
    ("SiteX" : String) ≠ "ALL"
    ∧ (∀ r ∈ exTable, r.launchSite ≠ "SiteX")
    ∧ ((get_pie_chart exTable "SiteX").values = []
      ∧ ∀ rng : Int × Int, (get_scatter_chart exTable "SiteX" rng).records = []) :=
  ⟨by decide, by decide, unknown_site_empty exTable "SiteX" (by decide) (by decide)⟩

/-- C6 (failing input, spec-over-code): at a stale site string unknown to
the table, scatterData does return an empty record set, and the pie branch
does compute an empty count array — but it pairs it with the length-1 label
list `["Success"]`, so the `px.pie` call raises a length-mismatch
`ValueError` instead of producing an empty chart, contradicting the spec's
robustness requirement for out-of-domain control values. -/
theorem unknown_site_raises :
    ("SiteX" : String) ≠ "ALL"
    ∧ (∀ r ∈ exTable, r.launchSite ≠ "SiteX")
    ∧ (get_scatter_chart exTable "SiteX" (0, 10000)).records = []
    ∧ (get_pie_chart exTable "SiteX").values = []
    ∧ (get_pie_chart exTable "SiteX").names = ["Success"]
    ∧ get_pie_chart_checked exTable "SiteX"
        = Except.error "All arguments should have the same length" :=
  ⟨by decide, by decide, by decide, by decide, by decide, rfl⟩

/-- C7: for a specific site, the pie counts sum to the number of records of
the table whose launch site is that site. -/
theorem pie_site_counts_sum (df : LaunchTable) (site : String)
    (hsite : site ≠ "ALL") :
    (get_pie_chart df site).values.sum
      = (df.filter (fun r => r.launchSite == site)).length := by
  have hb : (site == "ALL") = false := by simp [hsite]
  rw [get_pie_chart_site_values df site hb]
  have hperm : ((valueCounts ((siteFilter df site).map (fun r => r.outcomeClass))).map
        (fun p => p.2)).Perm
      (((uniqueKeep ((siteFilter df site).map (fun r => r.outcomeClass))).map
        (fun v => ((siteFilter df site).map (fun r => r.outcomeClass)).count v))) := by
    have h1 := (valueCounts_perm ((siteFilter df site).map (fun r => r.outcomeClass))).map
      (fun p : Nat × Nat => p.2)
    rw [List.map_map] at h1
    exact h1
  rw [hperm.sum_eq, sum_map_uniqueKeep_count, List.length_map]
  rfl

/-- C7 witness: `pie_site_counts_sum` at the example table and SiteA. -/
theorem pie_site_counts_sum_witness :
    ("SiteA" : String) ≠ "ALL"
    ∧ (get_pie_chart exTable "SiteA").values.sum
        = (exTable.filter (fun r => r.launchSite == "SiteA")).length :=
  ⟨by decide, pie_site_counts_sum exTable "SiteA" (by decide)⟩

/-- C8: both aggregations are pure: a second call with the same arguments on
the table state left by the first returns the identical output, and the
table after any call is the table before it. -/
theorem aggregation_calls_pure (df : LaunchTable) (site : String) (rng : Int × Int) :
    pieCall ((pieCall df site).2) site = pieCall df site
    ∧ (pieCall df site).2 = df
    ∧ scatterCall ((scatterCall df site rng).2) site rng = scatterCall df site rng
    ∧ (scatterCall df site rng).2 = df :=
  ⟨rfl, rfl, rfl, rfl⟩

/-- C9: every scatter point carries payload as x, class as y, booster
category as color and payload again as marker size, and the launch-site
hover column is attached exactly in the "ALL" case. -/
theorem scatter_point_fields (df : LaunchTable) (site : String) (rng : Int × Int) :
    (get_scatter_chart df site rng).x
        = (get_scatter_chart df site rng).records.map (fun r => r.payloadMassKg)
    ∧ (get_scatter_chart df site rng).y
        = (get_scatter_chart df site rng).records.map (fun r => r.outcomeClass)
    ∧ (get_scatter_chart df site rng).color
        = (get_scatter_chart df site rng).records.map (fun r => r.boosterVersionCategory)
    ∧ (get_scatter_chart df site rng).size
        = (get_scatter_chart df site rng).records.map (fun r => r.payloadMassKg)
    ∧ (get_scatter_chart df site rng).hoverSite
        = (if site = "ALL"
           then some ((get_scatter_chart df site rng).records.map (fun r => r.launchSite))
           else none) := by
  by_cases hs : site = "ALL"
  · subst hs
    simp [get_scatter_chart]
  · have hb : (site == "ALL") = false := by simp [hs]
    simp [get_scatter_chart, hb, hs]

/-- C10: the pie output cannot depend on the payload-range control: the pie
callback is wired to the site dropdown alone, so two control states that
differ only in the payload range give identical pie data. -/
theorem pie_range_noninterference (df : LaunchTable) (site : String)
    (rng1 rng2 : Int × Int) :
    dashboardPie df ⟨site, rng1⟩ = dashboardPie df ⟨site, rng2⟩ :=
  rfl
